import Mathlib

/-!
Shallow embedding of the match-data acquisition and caching pipeline of the
League-Stats repository (`stats_visualization/league.py` and
`stats_visualization/async_fetch.py`), together with theorems settling the
spec claims about it.

Modelling conventions:
* JSON payloads are values of the inductive type `Json`; Python dicts are
  `Json.obj` with an association list of fields (dict assignment replaces an
  existing key in place, else appends).
* The on-disk matches directory is a function `String → Option CacheFile`;
  a present file is either `corrupt` (unreadable / not JSON) or `parsed j`.
* Network responses are supplied by oracles (lists of responses or functions
  from request parameters), so fetch functions become pure functions of the
  oracle; request counts and per-id events are returned explicitly.
* Latencies and wall-clock times are rationals; Python `int(n * 0.95)` on a
  nonnegative value is the rational floor.
-/

/-- JSON values, the payload type of all cache files and API responses. -/
inductive Json where
  | null : Json
  | bool (b : Bool) : Json
  | num (n : Int) : Json
  | str (s : String) : Json
  | arr (elems : List Json) : Json
  | obj (fields : List (String × Json)) : Json

/-- Whether a JSON value is an object (a Python `dict`). -/
def Json.isObj : Json → Bool
  | .obj _ => true
  | _ => false

/-- Python `key in data` for a dict: membership among the object's keys;
`false` on non-objects. -/
def Json.hasKey (j : Json) (k : String) : Bool :=
  match j with
  | .obj fields => fields.any (fun p => p.1 = k)
  | _ => false

/-- Look up a key in an object (first binding wins, as in a dict). -/
def Json.getKey (j : Json) (k : String) : Option Json :=
  match j with
  | .obj fields => (fields.find? (fun p => p.1 = k)).map Prod.snd
  | _ => none

/-- Dict assignment `d[k] = v`: replace the first binding of `k` in place,
else append at the end. -/
def setPairs : List (String × Json) → String → Json → List (String × Json)
  | [], k, v => [(k, v)]
  | (k', v') :: rest, k, v =>
      if k' = k then (k, v) :: rest else (k', v') :: setPairs rest k v

/-- `data[k] = v` on a JSON value; leaves non-objects unchanged (the source
only ever assigns into dicts). -/
def Json.setField (j : Json) (k : String) (v : Json) : Json :=
  match j with
  | .obj fields => .obj (setPairs fields k v)
  | other => other

/-- Python truthiness of a JSON value (`if data:`): empty dict/list/string,
zero and `None`/`False` are falsy. -/
def Json.truthy : Json → Bool
  | .null => false
  | .bool b => b
  | .num n => n ≠ 0
  | .str s => !s.isEmpty
  | .arr elems => !elems.isEmpty
  | .obj fields => !fields.isEmpty

/-- `league.validate_match_data`: the payload is valid iff it contains both
required fields `"info"` and `"metadata"` (key presence only). -/
def validate_match_data (data : Json) : Bool :=
  ["info", "metadata"].all (fun f => data.hasKey f)

/-- Validation predicate as the spec words it: an object whose `"metadata"`
and `"info"` values are themselves objects. Stated only to compare with
`validate_match_data`, which is the one the source implements. -/
def specValidMatchRecord (j : Json) : Bool :=
  match j.getKey "metadata", j.getKey "info" with
  | some m, some i => m.isObj && i.isObj
  | _, _ => false

/-- The stricter canonical rule the spec mentions: additionally `"gameId"`
inside `info` and `"matchId"` inside `metadata`. -/
def specStrictValidMatchRecord (j : Json) : Bool :=
  specValidMatchRecord j &&
    (match j.getKey "metadata", j.getKey "info" with
     | some m, some i => m.hasKey "matchId" && i.hasKey "gameId"
     | _, _ => false)

/-- An on-disk cache file: unreadable / not JSON, or a parsed JSON value. -/
inductive CacheFile where
  | corrupt : CacheFile
  | parsed (j : Json) : CacheFile

/-- `league.FetchMetrics`: process-wide counters and latency samples. -/
structure FetchMetrics where
  total_requests : Nat := 0
  cache_hits : Nat := 0
  cache_misses : Nat := 0
  retry_count : Nat := 0
  request_latencies : List ℚ := []
  match_ids_requests : Nat := 0
  match_details_requests : Nat := 0
  timeline_requests : Nat := 0
  start_time : Option ℚ := none
  end_time : Option ℚ := none

/-- `FetchMetrics.add_request_latency`: append the sample, bump
`total_requests`, and bump the matching phase counter, if any. -/
def FetchMetrics.add_request_latency (m : FetchMetrics) (latency : ℚ)
    (request_type : String) : FetchMetrics :=
  let m := { m with
    request_latencies := m.request_latencies ++ [latency],
    total_requests := m.total_requests + 1 }
  if request_type = "match_ids" then
    { m with match_ids_requests := m.match_ids_requests + 1 }
  else if request_type = "match_details" then
    { m with match_details_requests := m.match_details_requests + 1 }
  else if request_type = "timeline" then
    { m with timeline_requests := m.timeline_requests + 1 }
  else m

/-- `FetchMetrics.add_cache_hit`. -/
def FetchMetrics.add_cache_hit (m : FetchMetrics) : FetchMetrics :=
  { m with cache_hits := m.cache_hits + 1 }

/-- `FetchMetrics.add_cache_miss`. -/
def FetchMetrics.add_cache_miss (m : FetchMetrics) : FetchMetrics :=
  { m with cache_misses := m.cache_misses + 1 }

/-- `FetchMetrics.add_retry`. -/
def FetchMetrics.add_retry (m : FetchMetrics) : FetchMetrics :=
  { m with retry_count := m.retry_count + 1 }

/-- `FetchMetrics.start_timing` (the current wall-clock time is a
parameter). -/
def FetchMetrics.start_timing (m : FetchMetrics) (t : ℚ) : FetchMetrics :=
  { m with start_time := some t }

/-- `FetchMetrics.end_timing`. -/
def FetchMetrics.end_timing (m : FetchMetrics) (t : ℚ) : FetchMetrics :=
  { m with end_time := some t }

/-- `FetchMetrics.p95_latency`: value at index `int(n * 0.95)` of the
ascending-sorted samples, index clamped to `n - 1`; `0.0` when empty.
Python `int` truncation on the nonnegative product is `Rat.floor` followed
by `Int.toNat`. -/
def FetchMetrics.p95_latency (m : FetchMetrics) : ℚ :=
  if m.request_latencies.isEmpty then 0
  else
    let sorted_latencies := m.request_latencies.insertionSort (· ≤ ·)
    let index := (Rat.floor ((sorted_latencies.length : ℚ) * (95 / 100))).toNat
    sorted_latencies.getD (min index (sorted_latencies.length - 1)) 0

/-- The state-changing operations of `FetchMetrics`, for stating that each
of them preserves the counter invariants. -/
inductive MetricsOp where
  | addRequestLatency (latency : ℚ) (request_type : String) : MetricsOp
  | addCacheHit : MetricsOp
  | addCacheMiss : MetricsOp
  | addRetry : MetricsOp
  | startTiming (t : ℚ) : MetricsOp
  | endTiming (t : ℚ) : MetricsOp

/-- Apply one metrics operation. -/
def applyMetricsOp (m : FetchMetrics) : MetricsOp → FetchMetrics
  | .addRequestLatency latency ty => m.add_request_latency latency ty
  | .addCacheHit => m.add_cache_hit
  | .addCacheMiss => m.add_cache_miss
  | .addRetry => m.add_retry
  | .startTiming t => m.start_timing t
  | .endTiming t => m.end_timing t

/-- The `FetchMetrics` counter invariant: the request total matches the
number of latency samples, and the per-phase counters never exceed it. -/
def MetricsInv (m : FetchMetrics) : Prop :=
  m.total_requests = m.request_latencies.length ∧
  m.match_ids_requests + m.match_details_requests + m.timeline_requests ≤
    m.total_requests

/-- Sum of the three per-phase request counters. -/
def phaseSum (m : FetchMetrics) : Nat :=
  m.match_ids_requests + m.match_details_requests + m.timeline_requests

/-- State threaded through the batch processor: the matches directory,
the metrics singleton, and the counters `process_matches` reports. -/
structure ProcState where
  disk : String → Option CacheFile
  metrics : FetchMetrics := {}
  successful : Nat := 0
  failed : Nat := 0
  cached : Nat := 0

/-- Observable per-id events, used to state which ids were fetched over the
network and which were served from cache. -/
inductive FetchEvent where
  | fetch (id : String) : FetchEvent
  | cacheHit (id : String) : FetchEvent
  | cacheMiss (id : String) : FetchEvent
deriving DecidableEq

/-- The match id an event is about. -/
def FetchEvent.matchId : FetchEvent → String
  | .fetch id => id
  | .cacheHit id => id
  | .cacheMiss id => id

/-- Whether an event is a cache hit. -/
def FetchEvent.isHit : FetchEvent → Bool
  | .cacheHit _ => true
  | _ => false

/-- `league.load_cached_match_data`: `none` (plus a cache-miss count) when
the file is absent, unreadable, or fails `validate_match_data` after a
non-dict payload is coerced to the empty dict; otherwise the payload plus a
cache-hit count. -/
def load_cached_match_data (s : ProcState) (id : String) :
    ProcState × Option Json × List FetchEvent :=
  match s.disk id with
  | none =>
      ({ s with metrics := s.metrics.add_cache_miss }, none, [.cacheMiss id])
  | some .corrupt =>
      ({ s with metrics := s.metrics.add_cache_miss }, none, [.cacheMiss id])
  | some (.parsed loaded) =>
      let data := if loaded.isObj then loaded else .obj []
      if validate_match_data data then
        ({ s with metrics := s.metrics.add_cache_hit }, some data,
          [.cacheHit id])
      else
        ({ s with metrics := s.metrics.add_cache_miss }, none, [.cacheMiss id])

/-- `league.save_match_data`: write the payload wholesale under the id's
file name (the model assumes the write succeeds). -/
def save_match_data (s : ProcState) (id : String) (data : Json) : ProcState :=
  { s with disk := fun k => if k = id then some (.parsed data) else s.disk k }

/-- One iteration of the `process_matches` loop: cache lookup when
`use_cache`, then fetch-and-save when the cache yielded nothing, counting
the outcome; an exception from the fetcher is caught and counted as
failed. The fetcher oracle stands for `fetch_match_with_timeline`. -/
def processOne (fetch : String → Except Unit Json) (use_cache : Bool)
    (s : ProcState) (id : String) : ProcState × List FetchEvent :=
  let t := if use_cache then load_cached_match_data s id else (s, none, [])
  let s1 := t.1
  let data := t.2.1
  let evs := t.2.2
  let s2 :=
    if (match data with | some d => d.truthy | none => false) then
      { s1 with cached := s1.cached + 1 }
    else s1
  match data with
  | some _ => ({ s2 with successful := s2.successful + 1 }, evs)
  | none =>
      match fetch id with
      | .ok d =>
          ({ save_match_data s2 id d with successful := s2.successful + 1 },
            evs ++ [.fetch id])
      | .error _ =>
          ({ s2 with failed := s2.failed + 1 }, evs ++ [.fetch id])

/-- `league.process_matches`: drive every id of the batch through
`processOne`, accumulating the event log. -/
def process_matches (fetch : String → Except Unit Json) (use_cache : Bool) :
    ProcState → List String → ProcState × List FetchEvent
  | s, [] => (s, [])
  | s, id :: rest =>
      let t1 := processOne fetch use_cache s id
      let t2 := process_matches fetch use_cache t1.1 rest
      (t2.1, t1.2 ++ t2.2)

/-- `league.fetch_timeline_data`: a transport or parse failure, and a
non-dict body, both degrade to `none`. -/
def fetch_timeline_data (resp : Except Unit Json) : Option Json :=
  match resp with
  | .error _ => none
  | .ok j => if j.isObj then some j else none

/-- `league.fetch_match_with_timeline` after the match payload arrived:
merge the timeline payload under `"timeline"` when it is truthy, else
return the match payload unchanged. -/
def mergeTimeline (match_data : Json) (timeline_data : Option Json) : Json :=
  match timeline_data with
  | some t => if t.truthy then match_data.setField "timeline" t else match_data
  | none => match_data

/-- `league.fetch_match_with_timeline` as a whole: the match fetch outcome
propagates; the timeline fetch outcome is degraded by
`fetch_timeline_data` and merged best-effort. -/
def fetch_match_with_timeline (matchResp : Except Unit Json)
    (timelineResp : Except Unit Json) : Except Unit Json :=
  match matchResp with
  | .error e => .error e
  | .ok match_data => .ok (mergeTimeline match_data (fetch_timeline_data timelineResp))

/-- An HTTP response as the retry logic observes it: status code, the
`Retry-After` hint, and the JSON body. -/
structure HttpResponse where
  status : Nat
  retryAfter : Nat
  body : Json

/-- `league.fetch_match_data_async`, driven by the list of responses the
server would return to its successive requests (an empty list means the
transport itself fails). Each 429 response sleeps and re-enters the whole
function, so every 429 is retried; returns the number of requests issued
and the outcome. -/
def fetch_match_data_async (responses : List HttpResponse) :
    Nat × Except Unit Json :=
  match responses with
  | [] => (0, .error ())
  | r :: rest =>
      if r.status = 429 then
        let (n, res) := fetch_match_data_async rest
        (n + 1, res)
      else if 400 ≤ r.status then (1, .error ())
      else if r.body.isObj then (1, .ok r.body)
      else (1, .error ())

/-- `async_fetch._retryable_get`: a 429 is retried only while
`max_retries > 0` (one retry at the default); any remaining non-2xx
status, a 429 included, raises. Returns the number of requests issued and
the outcome. -/
def retryable_get (max_retries : Nat) (responses : List HttpResponse) :
    Nat × Except Unit HttpResponse :=
  match responses, max_retries with
  | [], _ => (0, .error ())
  | r :: rest, mr =>
      if r.status = 429 ∧ 0 < mr then
        let (n, res) := retryable_get (mr - 1) rest
        (n + 1, res)
      else if 400 ≤ r.status then (1, .error ())
      else (1, .ok r)

/-- `async_fetch.fetch_timeline`: an HTTP 404 from the (retried) get is
swallowed into `none` (explicit absence); any other failure re-raises; a
success projects the `"metadata"` and `"info"` fields, with missing ones
defaulting to the empty object. The get outcome is supplied as an `Except`
carrying the failing HTTP status. -/
def af_fetch_timeline (resp : Except Nat HttpResponse) :
    Except Nat (Option Json) :=
  match resp with
  | .error status => if status = 404 then .ok none else .error status
  | .ok r =>
      .ok (some (.obj
        [("metadata", (r.body.getKey "metadata").getD (.obj [])),
         ("info", (r.body.getKey "info").getD (.obj []))]))

/-- `async_fetch.fetch_match_with_timeline`: the match and timeline tasks
are gathered without `return_exceptions`, so the first failure — a
re-raised timeline failure included — propagates to the caller; when both
tasks return, a truthy timeline payload is merged under `"timeline"`. -/
def af_fetch_match_with_timeline (matchRes : Except Nat Json)
    (timelineRes : Except Nat (Option Json)) : Except Nat Json :=
  match matchRes, timelineRes with
  | .error e, _ => .error e
  | .ok _, .error e => .error e
  | .ok match_data, .ok timeline_data =>
      match timeline_data with
      | some t =>
          if t.truthy then .ok (match_data.setField "timeline" t)
          else .ok match_data
      | none => .ok match_data

/-- `league.make_api_request` for a single request: record the latency and
the phase, count a retry on a 429, and raise on any HTTP error status;
performs no retry of its own. -/
def make_api_request (m : FetchMetrics) (resp : HttpResponse) (latency : ℚ)
    (request_type : String) : FetchMetrics × Except Unit HttpResponse :=
  let m := m.add_request_latency latency request_type
  if 400 ≤ resp.status then
    (if resp.status = 429 then m.add_retry else m, .error ())
  else (m, .ok resp)

/-- The paging loop of `league.fetch_match_history`, with the pages the
upstream returns supplied as an oracle from `(start, count)` to the id
batch. Returns the collected ids and the log of `(start, count)` requests
issued. `fuel` only bounds the recursion; started at `remaining` it is
never exhausted, because each iteration either stops or lowers `remaining`
by at least 1. The 429 branch is omitted: the oracle stands for the
successful responses. -/
def fetchHistoryGo (pages : Nat → Nat → List String) :
    Nat → Nat → Nat → List String × List (Nat × Nat)
  | 0, _, _ => ([], [])
  | fuel + 1, remaining, start =>
      if remaining = 0 then ([], [])
      else
        let batch_count := min 100 remaining
        let batch_ids := pages start batch_count
        if batch_ids.length < batch_count then (batch_ids, [(start, batch_count)])
        else
          match fetchHistoryGo pages fuel (remaining - batch_count)
              (start + batch_count) with
          | (rest, log) => (batch_ids ++ rest, (start, batch_count) :: log)

/-- `league.fetch_match_history`: reject a non-positive count, else page
from offset 0. -/
def fetch_match_history (pages : Nat → Nat → List String) (count : Nat) :
    Except String (List String × List (Nat × Nat)) :=
  if count = 0 then .error "Count must be positive"
  else .ok (fetchHistoryGo pages count count 0)

/-! ### Theorems -/

theorem add_request_latency_fields (m : FetchMetrics) (latency : ℚ)
    (ty : String) :
    (m.add_request_latency latency ty).request_latencies =
        m.request_latencies ++ [latency] ∧
    (m.add_request_latency latency ty).total_requests = m.total_requests + 1 ∧
    phaseSum (m.add_request_latency latency ty) ≤ phaseSum m + 1 ∧
    phaseSum m ≤ phaseSum (m.add_request_latency latency ty) := by
  simp only [FetchMetrics.add_request_latency, phaseSum]
  split_ifs <;> simp <;> omega

/-- C10: every `FetchMetrics` operation preserves
`total_requests = |request_latencies|` and
`match_ids + match_details + timeline ≤ total_requests`;
`add_request_latency` appends exactly one sample, bumps `total_requests` by
exactly 1 and at most one phase counter; no other operation touches these
fields. -/
theorem fetchMetrics_ops_preserve_inv (m : FetchMetrics) (op : MetricsOp) :
    (MetricsInv m → MetricsInv (applyMetricsOp m op)) ∧
    (∀ latency ty,
      (m.add_request_latency latency ty).request_latencies =
          m.request_latencies ++ [latency] ∧
      (m.add_request_latency latency ty).total_requests = m.total_requests + 1 ∧
      phaseSum (m.add_request_latency latency ty) ≤ phaseSum m + 1 ∧
      phaseSum m ≤ phaseSum (m.add_request_latency latency ty)) ∧
    ((∀ latency ty, op ≠ .addRequestLatency latency ty) →
      (applyMetricsOp m op).total_requests = m.total_requests ∧
      (applyMetricsOp m op).request_latencies = m.request_latencies ∧
      (applyMetricsOp m op).match_ids_requests = m.match_ids_requests ∧
      (applyMetricsOp m op).match_details_requests = m.match_details_requests ∧
      (applyMetricsOp m op).timeline_requests = m.timeline_requests) := by
  refine ⟨?_, fun latency ty => add_request_latency_fields m latency ty, ?_⟩
  · rintro ⟨h1, h2⟩
    cases op with
    | addRequestLatency latency ty =>
        obtain ⟨hl, ht, hp1, hp2⟩ := add_request_latency_fields m latency ty
        simp only [applyMetricsOp, MetricsInv]
        refine ⟨?_, ?_⟩
        · rw [ht, hl, List.length_append, h1]
          rfl
        · simp only [phaseSum] at hp1 hp2
          rw [ht]
          omega
    | addCacheHit => exact ⟨h1, h2⟩
    | addCacheMiss => exact ⟨h1, h2⟩
    | addRetry => exact ⟨h1, h2⟩
    | startTiming t => exact ⟨h1, h2⟩
    | endTiming t => exact ⟨h1, h2⟩
  · intro hop
    cases op with
    | addRequestLatency latency ty => exact absurd rfl (hop latency ty)
    | addCacheHit => exact ⟨rfl, rfl, rfl, rfl, rfl⟩
    | addCacheMiss => exact ⟨rfl, rfl, rfl, rfl, rfl⟩
    | addRetry => exact ⟨rfl, rfl, rfl, rfl, rfl⟩
    | startTiming t => exact ⟨rfl, rfl, rfl, rfl, rfl⟩
    | endTiming t => exact ⟨rfl, rfl, rfl, rfl, rfl⟩

theorem fetchMetrics_ops_preserve_inv_witness :
    MetricsInv ((({} : FetchMetrics).add_request_latency (1/2)
      "match_details").add_cache_hit) := by
  have h1 : MetricsInv (({} : FetchMetrics).add_request_latency (1/2)
      "match_details") :=
    (fetchMetrics_ops_preserve_inv {}
      (.addRequestLatency (1/2) "match_details")).1 (by constructor <;> decide)
  exact (fetchMetrics_ops_preserve_inv
      (({} : FetchMetrics).add_request_latency (1/2) "match_details")
      .addCacheHit).1 h1

theorem ratFloor_toNat_eq_natFloor (q : ℚ) :
    (Rat.floor q).toNat = Nat.floor q := by
  rw [show Rat.floor q = Int.floor q from rfl]
  exact Int.floor_toNat q

/-- C8: for a non-empty sample list, `p95_latency` is the element of the
ascending-sorted samples at index `⌊0.95 * n⌋` clamped to `n - 1`; on
`[0.1, 0.2, 0.3, 0.4, 0.5]` it is at least `0.4`. -/
theorem p95_latency_sorted_index (m : FetchMetrics)
    (h : m.request_latencies ≠ []) :
    (∃ s : List ℚ, s.Perm m.request_latencies ∧ s.Sorted (· ≤ ·) ∧
      m.p95_latency =
        s.getD (min (Nat.floor ((95 / 100 : ℚ) * m.request_latencies.length))
          (m.request_latencies.length - 1)) 0) ∧
    ({ request_latencies := [1/10, 2/10, 3/10, 4/10, 5/10] } :
        FetchMetrics).p95_latency ≥ 4/10 := by
  constructor
  · refine ⟨m.request_latencies.insertionSort (· ≤ ·),
      List.perm_insertionSort _ _, List.sorted_insertionSort _ _, ?_⟩
    have hlen : (m.request_latencies.insertionSort (· ≤ ·)).length
        = m.request_latencies.length := (List.perm_insertionSort _ _).length_eq
    have hemp : m.request_latencies.isEmpty = false := by
      cases hl : m.request_latencies with
      | nil => exact absurd hl h
      | cons a l => rfl
    simp only [FetchMetrics.p95_latency, hemp, Bool.false_eq_true, if_false,
      hlen, ratFloor_toNat_eq_natFloor]
    rw [mul_comm]
  · have h5 : (([1/10, 2/10, 3/10, 4/10, 5/10] : List ℚ).insertionSort
        (· ≤ ·)) = [1/10, 2/10, 3/10, 4/10, 5/10] := by
      norm_num [List.insertionSort, List.orderedInsert]
    have h4 : (Rat.floor ((19 : ℚ) / 4)).toNat = 4 := by
      rw [ratFloor_toNat_eq_natFloor,
        show ((19 : ℚ) / 4) = ((19 : ℕ) : ℚ) / ((4 : ℕ) : ℚ) by norm_num,
        Nat.floor_div_nat, Nat.floor_natCast]
    simp only [FetchMetrics.p95_latency]
    norm_num [h5, h4, List.getD]

theorem p95_latency_sorted_index_witness :
    (∃ s : List ℚ,
      s.Perm ({ request_latencies := [1/10, 2/10, 3/10, 4/10, 5/10] } :
          FetchMetrics).request_latencies ∧
      s.Sorted (· ≤ ·) ∧
      ({ request_latencies := [1/10, 2/10, 3/10, 4/10, 5/10] } :
          FetchMetrics).p95_latency =
        s.getD (min (Nat.floor ((95 / 100 : ℚ) *
            ({ request_latencies := [1/10, 2/10, 3/10, 4/10, 5/10] } :
              FetchMetrics).request_latencies.length))
          (({ request_latencies := [1/10, 2/10, 3/10, 4/10, 5/10] } :
              FetchMetrics).request_latencies.length - 1)) 0) ∧
    ({ request_latencies := [1/10, 2/10, 3/10, 4/10, 5/10] } :
        FetchMetrics).p95_latency ≥ 4/10 :=
  p95_latency_sorted_index _ (by simp)

/-- C2 (amended): `load_cached_match_data` returns `none` exactly when the
file is absent, unreadable, or the parsed payload fails
`validate_match_data` after non-object payloads are coerced to the empty
object — key presence of `"info"` and `"metadata"` is all that is
checked. -/
theorem load_cached_match_data_none_iff (s : ProcState) (id : String) :
    (load_cached_match_data s id).2.1 = none ↔
      (s.disk id = none ∨ s.disk id = some .corrupt ∨
        ∃ j, s.disk id = some (.parsed j) ∧
          validate_match_data (if j.isObj then j else .obj []) = false) := by
  cases hd : s.disk id with
  | none => simp [load_cached_match_data, hd]
  | some file =>
      cases file with
      | corrupt => simp [load_cached_match_data, hd]
      | parsed j =>
          by_cases hv : validate_match_data (if j.isObj then j else .obj [])
          · simp [load_cached_match_data, hd, hv]
          · simp [load_cached_match_data, hd, hv]

/-- C2 (counterexample): a cached payload whose `"metadata"` and `"info"`
values are numbers, not objects, is still returned by
`load_cached_match_data`, although the claim's validation rule rejects
it. -/
theorem load_cached_match_data_spec_rule_counterexample :
    (load_cached_match_data
        { disk := fun k =>
            if k = "m" then
              some (.parsed (.obj [("metadata", .num 1), ("info", .num 2)]))
            else none }
        "m").2.1 = some (.obj [("metadata", .num 1), ("info", .num 2)]) ∧
    specValidMatchRecord (.obj [("metadata", .num 1), ("info", .num 2)])
      = false ∧
    specStrictValidMatchRecord (.obj [("metadata", .num 1), ("info", .num 2)])
      = false :=
  ⟨rfl, rfl, rfl⟩

/-- C3: saving a structurally valid match record and loading it back under
the same id returns the stored payload unchanged (round-trip law). -/
theorem save_then_load_roundtrip (s : ProcState) (id : String) (data : Json)
    (hobj : data.isObj = true) (hval : validate_match_data data = true) :
    (load_cached_match_data (save_match_data s id data) id).2.1 = some data := by
  simp [load_cached_match_data, save_match_data, hobj, hval]

theorem save_then_load_roundtrip_witness :
    (load_cached_match_data
        (save_match_data { disk := fun _ => none } "m"
          (.obj [("metadata", .obj [("matchId", .str "m")]),
                 ("info", .obj [("gameId", .num 7)])]))
        "m").2.1 =
      some (.obj [("metadata", .obj [("matchId", .str "m")]),
                  ("info", .obj [("gameId", .num 7)])]) :=
  save_then_load_roundtrip { disk := fun _ => none } "m"
    (.obj [("metadata", .obj [("matchId", .str "m")]),
           ("info", .obj [("gameId", .num 7)])]) rfl rfl

/-- C7: once the match fetch succeeded, a timeline failure is never
propagated — the call returns the match record; on timeline failure the
record comes back without a `"timeline"` field, and the record carries a
`"timeline"` field only when the timeline fetch succeeded (with a truthy
object body). -/
theorem fetch_match_with_timeline_best_effort (m : Json)
    (tl : Except Unit Json) (hm : m.hasKey "timeline" = false) :
    (∃ j, fetch_match_with_timeline (.ok m) tl = .ok j) ∧
    (∀ e : Unit, fetch_match_with_timeline (.ok m) (.error e) = .ok m ∧
      (mergeTimeline m (fetch_timeline_data (.error e))).hasKey "timeline"
        = false) ∧
    (∀ j, fetch_match_with_timeline (.ok m) tl = .ok j →
      j.hasKey "timeline" = true →
      ∃ t, tl = .ok t ∧ t.isObj = true ∧ t.truthy = true) := by
  refine ⟨⟨_, rfl⟩, ?_, ?_⟩
  · intro e
    exact ⟨rfl, hm⟩
  · intro j hj hkey
    cases tl with
    | error e =>
        simp only [fetch_match_with_timeline, fetch_timeline_data,
          mergeTimeline, Except.ok.injEq] at hj
        rw [← hj, hm] at hkey
        cases hkey
    | ok t =>
        by_cases ht : t.isObj = true
        · by_cases htr : t.truthy = true
          · exact ⟨t, rfl, ht, htr⟩
          · simp only [fetch_match_with_timeline, fetch_timeline_data, ht,
              if_true, mergeTimeline, htr, Bool.false_eq_true, if_false,
              Except.ok.injEq] at hj
            rw [← hj, hm] at hkey
            cases hkey
        · simp only [fetch_match_with_timeline, fetch_timeline_data, ht,
            Bool.false_eq_true, if_false, mergeTimeline,
            Except.ok.injEq] at hj
          rw [← hj, hm] at hkey
          cases hkey

theorem fetch_match_with_timeline_best_effort_witness :
    (∃ j, fetch_match_with_timeline
        (.ok (.obj [("metadata", .obj []), ("info", .obj [])]))
        (.error ()) = .ok j) ∧
    (∀ e : Unit, fetch_match_with_timeline
        (.ok (.obj [("metadata", .obj []), ("info", .obj [])]))
        (.error e) = .ok (.obj [("metadata", .obj []), ("info", .obj [])]) ∧
      (mergeTimeline (.obj [("metadata", .obj []), ("info", .obj [])])
          (fetch_timeline_data (.error e))).hasKey "timeline" = false) ∧
    (∀ j, fetch_match_with_timeline
        (.ok (.obj [("metadata", .obj []), ("info", .obj [])]))
        (.error ()) = .ok j →
      j.hasKey "timeline" = true →
      ∃ t, (.error () : Except Unit Json) = .ok t ∧ t.isObj = true ∧
        t.truthy = true) :=
  fetch_match_with_timeline_best_effort
    (.obj [("metadata", .obj []), ("info", .obj [])]) (.error ()) rfl

/-- C5 (code evidence): `fetch_match_data_async` retries after the second
429 as well — three responses `[429, 429, 200]` end in success after three
requests — while the `_retryable_get` helper stops after one retry: on
`[429, 429]` it issues exactly two requests and fails. -/
theorem fetch_match_data_async_retries_second_429 :
    fetch_match_data_async
        [⟨429, 2, .null⟩, ⟨429, 2, .null⟩,
         ⟨200, 0, .obj [("metadata", .obj []), ("info", .obj [])]⟩]
      = (3, .ok (.obj [("metadata", .obj []), ("info", .obj [])])) ∧
    retryable_get 1 [⟨429, 2, .null⟩, ⟨429, 2, .null⟩] = (2, .error ()) :=
  ⟨rfl, rfl⟩

theorem fetchHistoryGo_length_le (pages : Nat → Nat → List String)
    (hle : ∀ st c, (pages st c).length ≤ c) :
    ∀ fuel remaining start,
      (fetchHistoryGo pages fuel remaining start).1.length ≤ remaining := by
  intro fuel
  induction fuel with
  | zero => intro remaining start; simp [fetchHistoryGo]
  | succ fuel ih =>
      intro remaining start
      by_cases h0 : remaining = 0
      · simp [fetchHistoryGo, h0]
      · simp only [fetchHistoryGo, h0, if_false]
        have hbr : min 100 remaining ≤ remaining := min_le_right _ _
        by_cases hshort :
            (pages start (min 100 remaining)).length < min 100 remaining
        · simp only [hshort, if_true]
          omega
        · simp only [hshort, if_false]
          have hih := ih (remaining - min 100 remaining)
            (start + min 100 remaining)
          rcases hrec : fetchHistoryGo pages fuel (remaining - min 100 remaining)
              (start + min 100 remaining) with ⟨rest, log⟩
          rw [hrec] at hih
          dsimp only at hih ⊢
          simp only [List.length_append]
          have hfullp : (pages start (min 100 remaining)).length ≤
              min 100 remaining := hle _ _
          omega

theorem fetchHistoryGo_log_shape (pages : Nat → Nat → List String) :
    ∀ fuel remaining start,
      (∀ p ∈ (fetchHistoryGo pages fuel remaining start).2, p.2 ≤ 100) ∧
      List.Chain' (fun p q : Nat × Nat => q.1 = p.1 + p.2)
        (fetchHistoryGo pages fuel remaining start).2 ∧
      (∀ p, (fetchHistoryGo pages fuel remaining start).2.head? = some p →
        p.1 = start) := by
  intro fuel
  induction fuel with
  | zero => intro remaining start; simp [fetchHistoryGo]
  | succ fuel ih =>
      intro remaining start
      by_cases h0 : remaining = 0
      · simp [fetchHistoryGo, h0]
      · simp only [fetchHistoryGo, h0, if_false]
        by_cases hshort :
            (pages start (min 100 remaining)).length < min 100 remaining
        · simp only [hshort, if_true]
          refine ⟨?_, ?_, ?_⟩
          · intro p hp
            rw [List.mem_singleton] at hp
            subst hp
            exact min_le_left _ _
          · simp
          · intro p hp
            rw [List.head?_cons, Option.some.injEq] at hp
            subst hp
            rfl
        · simp only [hshort, if_false]
          obtain ⟨ih1, ih2, ih3⟩ :=
            ih (remaining - min 100 remaining) (start + min 100 remaining)
          rcases hrec : fetchHistoryGo pages fuel (remaining - min 100 remaining)
              (start + min 100 remaining) with ⟨rest, log⟩
          rw [hrec] at ih1 ih2 ih3
          dsimp only at ih1 ih2 ih3 ⊢
          refine ⟨?_, ?_, ?_⟩
          · intro p hp
            rcases List.mem_cons.mp hp with h | h
            · subst h
              exact min_le_left _ _
            · exact ih1 p h
          · rw [List.chain'_cons']
            refine ⟨?_, ih2⟩
            intro q hq
            exact ih3 q hq
          · intro p hp
            rw [List.head?_cons, Option.some.injEq] at hp
            subst hp
            rfl

theorem fetchHistoryGo_stops_at_short (pages : Nat → Nat → List String)
    (hle : ∀ st c, (pages st c).length ≤ c) :
    ∀ fuel remaining start,
      ∀ p ∈ (fetchHistoryGo pages fuel remaining start).2.dropLast,
        (pages p.1 p.2).length = p.2 := by
  intro fuel
  induction fuel with
  | zero => intro remaining start; simp [fetchHistoryGo]
  | succ fuel ih =>
      intro remaining start
      by_cases h0 : remaining = 0
      · simp [fetchHistoryGo, h0]
      · simp only [fetchHistoryGo, h0, if_false]
        by_cases hshort :
            (pages start (min 100 remaining)).length < min 100 remaining
        · simp [hshort]
        · simp only [hshort, if_false]
          have hfull1 : (pages start (min 100 remaining)).length
              = min 100 remaining :=
            le_antisymm (hle _ _) (not_lt.mp hshort)
          have hih := ih (remaining - min 100 remaining)
            (start + min 100 remaining)
          rcases hrec : fetchHistoryGo pages fuel (remaining - min 100 remaining)
              (start + min 100 remaining) with ⟨rest, log⟩
          rw [hrec] at hih
          dsimp only at hih ⊢
          cases log with
          | nil => simp
          | cons q log2 =>
              intro p hp
              rw [List.dropLast_cons₂, List.mem_cons] at hp
              rcases hp with h | h
              · subst h
                exact hfull1
              · exact hih p (by simpa using h)

theorem fetchHistoryGo_full_pages (pages : Nat → Nat → List String)
    (hfull : ∀ st c, (pages st c).length = c) :
    ∀ fuel remaining start, remaining ≤ fuel →
      (fetchHistoryGo pages fuel remaining start).1.length = remaining ∧
      (fetchHistoryGo pages fuel remaining start).2.length
        = (remaining + 99) / 100 := by
  intro fuel
  induction fuel with
  | zero =>
      intro remaining start h
      have h0 : remaining = 0 := Nat.le_zero.mp h
      subst h0
      simp [fetchHistoryGo]
  | succ fuel ih =>
      intro remaining start h
      by_cases h0 : remaining = 0
      · subst h0
        simp [fetchHistoryGo]
      · simp only [fetchHistoryGo, h0, if_false]
        have hshort :
            ¬ (pages start (min 100 remaining)).length < min 100 remaining := by
          rw [hfull]
          exact lt_irrefl _
        simp only [hshort, if_false]
        have hrem : remaining - min 100 remaining ≤ fuel := by omega
        have hih := ih (remaining - min 100 remaining)
          (start + min 100 remaining) hrem
        rcases hrec : fetchHistoryGo pages fuel (remaining - min 100 remaining)
            (start + min 100 remaining) with ⟨rest, log⟩
        rw [hrec] at hih
        dsimp only at hih ⊢
        obtain ⟨hih1, hih2⟩ := hih
        constructor
        · rw [List.length_append, hfull, hih1]
          omega
        · rw [List.length_cons, hih2]
          omega

/-- C6: for `C > 0`, `fetch_match_history` succeeds and returns at most `C`
ids; every page request asks for at most 100 ids; consecutive requests
advance the start offset by the requested chunk size; every request except
possibly the last got a full page (it stops at the first short page); and
when the upstream never short-pages, exactly `⌈C / 100⌉` requests are
issued and exactly `C` ids are returned. -/
theorem fetch_match_history_pagination (pages : Nat → Nat → List String)
    (C : Nat) (hC : 0 < C) (hle : ∀ st c, (pages st c).length ≤ c) :
    ∃ ids log, fetch_match_history pages C = .ok (ids, log) ∧
      ids.length ≤ C ∧
      (∀ p ∈ log, p.2 ≤ 100) ∧
      List.Chain' (fun p q : Nat × Nat => q.1 = p.1 + p.2) log ∧
      (∀ p ∈ log.dropLast, (pages p.1 p.2).length = p.2) ∧
      ((∀ st c, (pages st c).length = c) →
        ids.length = C ∧ log.length = (C + 99) / 100) := by
  have hC0 : ¬ C = 0 := by omega
  refine ⟨(fetchHistoryGo pages C C 0).1, (fetchHistoryGo pages C C 0).2,
    ?_, ?_, ?_, ?_, ?_, ?_⟩
  · simp [fetch_match_history, hC0]
  · exact fetchHistoryGo_length_le pages hle C C 0
  · exact (fetchHistoryGo_log_shape pages C C 0).1
  · exact (fetchHistoryGo_log_shape pages C C 0).2.1
  · exact fetchHistoryGo_stops_at_short pages hle C C 0
  · intro hfull
    exact fetchHistoryGo_full_pages pages hfull C C 0 le_rfl

theorem fetch_match_history_pagination_witness :
    ∃ ids log,
      fetch_match_history (fun _ c => List.replicate c "a") 150
        = .ok (ids, log) ∧
      ids.length ≤ 150 ∧
      (∀ p ∈ log, p.2 ≤ 100) ∧
      List.Chain' (fun p q : Nat × Nat => q.1 = p.1 + p.2) log ∧
      (∀ p ∈ log.dropLast, (List.replicate p.2 "a").length = p.2) ∧
      ((∀ _st c : Nat, (List.replicate c "a" : List String).length = c) →
        ids.length = 150 ∧ log.length = (150 + 99) / 100) :=
  fetch_match_history_pagination (fun _ c => List.replicate c "a") 150
    (by norm_num) (fun _st c => by simp)

theorem load_shape (s : ProcState) (id : String) :
    (∃ j, load_cached_match_data s id =
        ({ s with metrics := s.metrics.add_cache_hit }, some j,
          [.cacheHit id])) ∨
    load_cached_match_data s id =
        ({ s with metrics := s.metrics.add_cache_miss }, none,
          [.cacheMiss id]) := by
  rcases hd : s.disk id with _ | file
  · right
    simp [load_cached_match_data, hd]
  · cases file with
    | corrupt =>
        right
        simp [load_cached_match_data, hd]
    | parsed j =>
        by_cases hv : validate_match_data (if j.isObj then j else .obj [])
        · left
          refine ⟨if j.isObj then j else .obj [], ?_⟩
          simp [load_cached_match_data, hd, hv]
        · right
          simp [load_cached_match_data, hd, hv]

theorem processOne_counts (fetch : String → Except Unit Json) (uc : Bool)
    (s : ProcState) (id : String) :
    (processOne fetch uc s id).1.successful
        + (processOne fetch uc s id).1.failed
      = s.successful + s.failed + 1 := by
  cases uc with
  | false =>
      simp only [processOne]
      cases hf : fetch id <;> simp [save_match_data] <;> omega
  | true =>
      simp only [processOne]
      rcases load_shape s id with ⟨j, hl⟩ | hl <;> rw [hl]
      · by_cases ht : j.truthy <;> simp [ht] <;> omega
      · cases hf : fetch id <;> simp [save_match_data] <;> omega

theorem processOne_event_ids (fetch : String → Except Unit Json) (uc : Bool)
    (s : ProcState) (id : String) :
    ∀ ev ∈ (processOne fetch uc s id).2, ev.matchId = id := by
  cases uc with
  | false =>
      simp only [processOne]
      cases hf : fetch id <;> simp [FetchEvent.matchId]
  | true =>
      simp only [processOne]
      rcases load_shape s id with ⟨j, hl⟩ | hl <;> rw [hl]
      · by_cases ht : j.truthy <;> simp [ht, FetchEvent.matchId]
      · cases hf : fetch id <;> simp [FetchEvent.matchId]

theorem processOne_disk_other (fetch : String → Except Unit Json) (uc : Bool)
    (s : ProcState) (a id : String) (hne : id ≠ a) :
    (processOne fetch uc s a).1.disk id = s.disk id := by
  cases uc with
  | false =>
      simp only [processOne]
      cases hf : fetch a <;> simp [save_match_data, hne]
  | true =>
      simp only [processOne]
      rcases load_shape s a with ⟨j, hl⟩ | hl <;> rw [hl]
      · by_cases ht : j.truthy <;> simp [ht]
      · cases hf : fetch a <;> simp [save_match_data, hne]

theorem processOne_cache_hits_events (fetch : String → Except Unit Json)
    (uc : Bool) (s : ProcState) (id : String) :
    (processOne fetch uc s id).1.metrics.cache_hits
      = s.metrics.cache_hits
        + (processOne fetch uc s id).2.countP (fun ev => ev.isHit) := by
  cases uc with
  | false =>
      simp only [processOne]
      cases hf : fetch id <;>
        simp [save_match_data, List.countP, List.countP.go, FetchEvent.isHit]
  | true =>
      simp only [processOne]
      rcases load_shape s id with ⟨j, hl⟩ | hl <;> rw [hl]
      · by_cases ht : j.truthy <;>
          simp [ht, FetchMetrics.add_cache_hit, List.countP, List.countP.go,
            FetchEvent.isHit]
      · cases hf : fetch id <;>
          simp [save_match_data, FetchMetrics.add_cache_miss, List.countP,
            List.countP.go, FetchEvent.isHit]

theorem validate_truthy (j : Json) (hv : validate_match_data j = true) :
    j.truthy = true := by
  cases j with
  | obj fields =>
      cases fields with
      | nil => simp [validate_match_data, Json.hasKey] at hv
      | cons a l => simp [Json.truthy]
  | null => simp [validate_match_data, Json.hasKey] at hv
  | bool b => simp [validate_match_data, Json.hasKey] at hv
  | num n => simp [validate_match_data, Json.hasKey] at hv
  | str t => simp [validate_match_data, Json.hasKey] at hv
  | arr elems => simp [validate_match_data, Json.hasKey] at hv

theorem validate_isObj (j : Json) (hv : validate_match_data j = true) :
    j.isObj = true := by
  cases j with
  | obj fields => rfl
  | null => simp [validate_match_data, Json.hasKey] at hv
  | bool b => simp [validate_match_data, Json.hasKey] at hv
  | num n => simp [validate_match_data, Json.hasKey] at hv
  | str t => simp [validate_match_data, Json.hasKey] at hv
  | arr elems => simp [validate_match_data, Json.hasKey] at hv

theorem processOne_cache_hit_shape (fetch : String → Except Unit Json)
    (s : ProcState) (id : String) (j : Json)
    (hd : s.disk id = some (.parsed j))
    (hv : validate_match_data j = true) :
    processOne fetch true s id =
      ({ s with
          metrics := s.metrics.add_cache_hit
          cached := s.cached + 1
          successful := s.successful + 1 }, [.cacheHit id]) := by
  have hobj : j.isObj = true := validate_isObj j hv
  have hload : load_cached_match_data s id =
      ({ s with metrics := s.metrics.add_cache_hit }, some j,
        [.cacheHit id]) := by
    simp [load_cached_match_data, hd, hobj, hv]
  simp only [processOne, if_true]
  rw [hload]
  simp [validate_truthy j hv]

theorem processOne_uncached_events (fetch : String → Except Unit Json)
    (s : ProcState) (id : String) :
    (processOne fetch false s id).2 = [.fetch id] := by
  simp only [processOne]
  cases hf : fetch id <;> simp

theorem process_matches_counts (fetch : String → Except Unit Json)
    (uc : Bool) :
    ∀ (ids : List String) (s : ProcState),
      (process_matches fetch uc s ids).1.successful
          + (process_matches fetch uc s ids).1.failed
        = s.successful + s.failed + ids.length := by
  intro ids
  induction ids with
  | nil => intro s; simp [process_matches]
  | cons id rest ih =>
      intro s
      simp only [process_matches]
      rw [ih, processOne_counts]
      simp only [List.length_cons]
      omega

theorem process_matches_event_ids (fetch : String → Except Unit Json)
    (uc : Bool) :
    ∀ (ids : List String) (s : ProcState),
      ∀ ev ∈ (process_matches fetch uc s ids).2, ev.matchId ∈ ids := by
  intro ids
  induction ids with
  | nil => intro s; simp [process_matches]
  | cons id rest ih =>
      intro s ev hev
      simp only [process_matches] at hev
      rcases List.mem_append.mp hev with h | h
      · rw [List.mem_cons]
        left
        exact processOne_event_ids fetch uc s id ev h
      · rw [List.mem_cons]
        right
        exact ih _ ev h

theorem process_matches_disk_notin (fetch : String → Except Unit Json)
    (uc : Bool) :
    ∀ (ids : List String) (s : ProcState) (id : String), id ∉ ids →
      (process_matches fetch uc s ids).1.disk id = s.disk id := by
  intro ids
  induction ids with
  | nil => intro s id _; simp [process_matches]
  | cons a rest ih =>
      intro s id hmem
      rw [List.mem_cons] at hmem
      push_neg at hmem
      simp only [process_matches]
      rw [ih _ _ hmem.2, processOne_disk_other fetch uc s a id hmem.1]

theorem process_matches_cache_hits (fetch : String → Except Unit Json)
    (uc : Bool) :
    ∀ (ids : List String) (s : ProcState),
      (process_matches fetch uc s ids).1.metrics.cache_hits
        = s.metrics.cache_hits
          + (process_matches fetch uc s ids).2.countP
              (fun ev => ev.isHit) := by
  intro ids
  induction ids with
  | nil => intro s; simp [process_matches]
  | cons id rest ih =>
      intro s
      simp only [process_matches]
      rw [List.countP_append, ih, processOne_cache_hits_events]
      omega

theorem process_matches_uncached_events (fetch : String → Except Unit Json) :
    ∀ (ids : List String) (s : ProcState),
      (process_matches fetch false s ids).2 = ids.map FetchEvent.fetch := by
  intro ids
  induction ids with
  | nil => intro s; simp [process_matches]
  | cons id rest ih =>
      intro s
      simp only [process_matches, List.map_cons]
      rw [ih, processOne_uncached_events]
      simp

theorem process_matches_append (fetch : String → Except Unit Json)
    (uc : Bool) :
    ∀ (l1 l2 : List String) (s : ProcState),
      process_matches fetch uc s (l1 ++ l2)
        = ((process_matches fetch uc
              (process_matches fetch uc s l1).1 l2).1,
          (process_matches fetch uc s l1).2
            ++ (process_matches fetch uc
                (process_matches fetch uc s l1).1 l2).2) := by
  intro l1
  induction l1 with
  | nil => intro l2 s; simp [process_matches]
  | cons a rest ih =>
      intro l2 s
      rw [List.cons_append]
      simp only [process_matches]
      rw [ih]
      simp [List.append_assoc]

/-- C4: batch processing attempts each id exactly once (with the cache
disabled, the event log is exactly one fetch per id, in order); every id
contributes exactly one success-or-failure to the aggregate counts; and on
the batch `["m1", "m2"]` with `use_cache = false`, a fetcher that raises
for `"m1"` and succeeds for `"m2"` yields `successful = 1, failed = 1,
cached = 0` with only `"m2"` written to the cache. -/
theorem process_matches_failure_isolation :
    (∀ (fetch : String → Except Unit Json) (uc : Bool) (s : ProcState)
        (ids : List String),
      (process_matches fetch uc s ids).1.successful
          + (process_matches fetch uc s ids).1.failed
        = s.successful + s.failed + ids.length) ∧
    (∀ (fetch : String → Except Unit Json) (s : ProcState)
        (ids : List String),
      (process_matches fetch false s ids).2 = ids.map FetchEvent.fetch) ∧
    (let m2json : Json := .obj [("metadata", .obj [("matchId", .str "m2")]),
        ("info", .obj [("gameId", .num 1)])];
     let out := process_matches
        (fun id => if id = "m1" then .error () else .ok m2json) false
        { disk := fun _ => none } ["m1", "m2"];
     out.1.successful = 1 ∧ out.1.failed = 1 ∧ out.1.cached = 0 ∧
     out.1.disk "m2" = some (.parsed m2json) ∧ out.1.disk "m1" = none) := by
  refine ⟨?_, ?_, ?_, ?_, ?_, ?_, ?_⟩
  · intro fetch uc s ids
    exact process_matches_counts fetch uc ids s
  · intro fetch s ids
    exact process_matches_uncached_events fetch ids s
  · rfl
  · rfl
  · rfl
  · rfl
  · rfl

/-- C1: in a batch run with the cache enabled, an id whose cache file holds
a structurally valid record is served from the cache: the event log shows
zero fetches and exactly one cache hit for that id, and the `cache_hits`
counter grows by exactly the number of cache-hit events. -/
theorem process_matches_cache_hit_no_refetch
    (fetch : String → Except Unit Json) (l1 l2 : List String) (id : String)
    (s : ProcState) (j : Json)
    (h1 : id ∉ l1) (h2 : id ∉ l2)
    (hd : s.disk id = some (.parsed j))
    (hv : validate_match_data j = true) :
    (process_matches fetch true s (l1 ++ id :: l2)).2.count (.fetch id)
        = 0 ∧
    (process_matches fetch true s (l1 ++ id :: l2)).2.count (.cacheHit id)
        = 1 ∧
    (process_matches fetch true s (l1 ++ id :: l2)).1.metrics.cache_hits
      = s.metrics.cache_hits
        + (process_matches fetch true s (l1 ++ id :: l2)).2.countP
            (fun ev => ev.isHit) := by
  have happ := process_matches_append fetch true l1 (id :: l2) s
  have hdisk1 : (process_matches fetch true s l1).1.disk id
      = some (.parsed j) := by
    rw [process_matches_disk_notin fetch true l1 s id h1, hd]
  have hstep := processOne_cache_hit_shape fetch
    (process_matches fetch true s l1).1 id j hdisk1 hv
  have hE1f : FetchEvent.fetch id ∉ (process_matches fetch true s l1).2 := by
    intro hmem
    have hmem2 := process_matches_event_ids fetch true l1 s _ hmem
    simp only [FetchEvent.matchId] at hmem2
    exact h1 hmem2
  have hE1h : FetchEvent.cacheHit id ∉ (process_matches fetch true s l1).2 := by
    intro hmem
    have hmem2 := process_matches_event_ids fetch true l1 s _ hmem
    simp only [FetchEvent.matchId] at hmem2
    exact h1 hmem2
  refine ⟨?_, ?_, process_matches_cache_hits fetch true (l1 ++ id :: l2) s⟩
  · rw [happ]
    dsimp only
    simp only [process_matches]
    rw [hstep]
    dsimp only
    have hE3 : FetchEvent.fetch id ∉ (process_matches fetch true
        ({ (process_matches fetch true s l1).1 with
            metrics := (process_matches fetch true s l1).1.metrics.add_cache_hit
            cached := (process_matches fetch true s l1).1.cached + 1
            successful :=
              (process_matches fetch true s l1).1.successful + 1 } :
          ProcState) l2).2 := by
      intro hmem
      have hmem2 := process_matches_event_ids fetch true l2 _ _ hmem
      simp only [FetchEvent.matchId] at hmem2
      exact h2 hmem2
    rw [List.count_append, List.count_append]
    rw [List.count_eq_zero.mpr hE1f, List.count_eq_zero.mpr hE3]
    simp
  · rw [happ]
    dsimp only
    simp only [process_matches]
    rw [hstep]
    dsimp only
    have hE3 : FetchEvent.cacheHit id ∉ (process_matches fetch true
        ({ (process_matches fetch true s l1).1 with
            metrics := (process_matches fetch true s l1).1.metrics.add_cache_hit
            cached := (process_matches fetch true s l1).1.cached + 1
            successful :=
              (process_matches fetch true s l1).1.successful + 1 } :
          ProcState) l2).2 := by
      intro hmem
      have hmem2 := process_matches_event_ids fetch true l2 _ _ hmem
      simp only [FetchEvent.matchId] at hmem2
      exact h2 hmem2
    rw [List.count_append, List.count_append]
    rw [List.count_eq_zero.mpr hE1h, List.count_eq_zero.mpr hE3]
    simp

theorem process_matches_cache_hit_no_refetch_witness :
    (process_matches (fun _ => .error ())
        true
        { disk := fun k => if k = "m" then
            some (.parsed (.obj [("metadata", .obj []), ("info", .obj [])]))
          else none }
        ([] ++ "m" :: [])).2.count (.fetch "m") = 0 ∧
    (process_matches (fun _ => .error ())
        true
        { disk := fun k => if k = "m" then
            some (.parsed (.obj [("metadata", .obj []), ("info", .obj [])]))
          else none }
        ([] ++ "m" :: [])).2.count (.cacheHit "m") = 1 ∧
    (process_matches (fun _ => .error ())
        true
        { disk := fun k => if k = "m" then
            some (.parsed (.obj [("metadata", .obj []), ("info", .obj [])]))
          else none }
        ([] ++ "m" :: [])).1.metrics.cache_hits
      = ({ disk := fun k => if k = "m" then
            some (.parsed (.obj [("metadata", .obj []), ("info", .obj [])]))
          else none } : ProcState).metrics.cache_hits
        + (process_matches (fun _ => .error ())
            true
            { disk := fun k => if k = "m" then
                some (.parsed (.obj [("metadata", .obj []),
                  ("info", .obj [])]))
              else none }
            ([] ++ "m" :: [])).2.countP (fun ev => ev.isHit) :=
  process_matches_cache_hit_no_refetch (fun _ => .error ()) [] [] "m"
    { disk := fun k => if k = "m" then
        some (.parsed (.obj [("metadata", .obj []), ("info", .obj [])]))
      else none }
    (.obj [("metadata", .obj []), ("info", .obj [])])
    (by simp) (by simp) rfl rfl

/-- C7 (counterexample): in `async_fetch.fetch_match_with_timeline`, a
non-404 timeline failure — here an HTTP 500 — propagates to the caller and
no match record is returned, falsifying the claim that a timeline failure
is never propagated; only a 404 is swallowed, in which case the match
record comes back without a `"timeline"` field. -/
theorem af_fetch_match_with_timeline_propagates_500 :
    af_fetch_match_with_timeline
        (.ok (.obj [("metadata", .obj []), ("info", .obj [])]))
        (af_fetch_timeline (.error 500)) = .error 500 ∧
    af_fetch_timeline (.error 404) = .ok none ∧
    af_fetch_match_with_timeline
        (.ok (.obj [("metadata", .obj []), ("info", .obj [])]))
        (af_fetch_timeline (.error 404))
      = .ok (.obj [("metadata", .obj []), ("info", .obj [])]) :=
  ⟨rfl, rfl, rfl⟩
